import Mathlib

/-!
Shallow embedding of the cvmfs cache-plugin channel core
(src/cvmfs/cache_plugin/channel.cc) and of the polymorphic-construction
registry exercised by src/test/unittests/t_polymorphic_construction.cc.

Pure functions mirror the C++ handlers; the pluggable cache backend is an
oracle (a structure of pure functions) and every handler additionally
returns the list of backend calls it performed, so that "performs no
backend call" is a statement about that list.
-/

namespace CvmfsChannel

/-- Status enumeration of the cache plugin protocol (cvmfs::EnumStatus). -/
inductive EnumStatus where
  | UNKNOWN
  | OK
  | NOSUPPORT
  | FORBIDDEN
  | NOENTRY
  | MALFORMED
  | IOERR
  | CORRUPTED
  | TIMEOUT
  | BADCOUNT
  | OUTOFBOUNDS
  | NOSPACE
deriving DecidableEq, Repr

/-- Content hash with algorithm tag (shash::Any). -/
structure ObjectId where
  algorithm : Nat
  digest : List Nat
deriving DecidableEq, Repr

/-- Object type tags from the message schema. -/
inductive ObjectType where
  | regular
  | catalog
  | pinned
  | volatile
deriving DecidableEq, Repr

/-- CachePlugin::kSizeUnknown = uint64_t(-1). -/
def kSizeUnknown : Nat := 2 ^ 64 - 1

/-- ObjectInfo handed to and from the backend. -/
structure ObjectInfo where
  id : ObjectId
  object_type : ObjectType
  size : Nat
  pinned : Bool
  description : String
deriving DecidableEq, Repr

instance : Inhabited ObjectInfo :=
  ⟨⟨⟨0, []⟩, ObjectType.regular, kSizeUnknown, false, ""⟩⟩

/-- Cache-wide info returned by GetInfo. -/
structure Info where
  size_bytes : Nat
  used_bytes : Nat
  pinned_bytes : Nat
  no_shrink : Bool
deriving DecidableEq, Repr

/-- Wire form of a hash (cvmfs::MsgHash): algorithm tag plus digest bytes. -/
structure MsgHash where
  algorithm : Nat
  digest : List Nat
deriving DecidableEq, Repr

/-- Modelled from the spec: CacheTransport::ParseMsgHash lives in the
transport (transport.cc, not among the sources).  Per §3 the wire form is a
fixed-width content hash with an explicit algorithm tag and parsing fails on
an unknown algorithm or a wrong digest width; requests with an unparseable
hash are answered MALFORMED.  Algorithm 1 with a 20-byte digest stands for
the one known algorithm. -/
def parseMsgHash (h : MsgHash) : Option ObjectId :=
  if h.algorithm = 1 ∧ h.digest.length = 20 then
    some ⟨h.algorithm, h.digest⟩
  else
    none

/-- Key of the transaction registry (UniqueRequest in channel.h):
a (session id, request id) pair. -/
structure UniqueRequest where
  session_id : Nat
  req_id : Nat
deriving DecidableEq, Repr

/-- Modelled from the spec: the transaction registry txn_ids_ is a
SmallHashDynamic (not among the sources); §4.3 specifies a mapping
(session_id, request_id) → transaction_id with contains, lookup, insert,
erase and clear.  It is embedded as an association list whose operations
keep keys unique. -/
abbrev Registry := List (UniqueRequest × Nat)

def rContains (reg : Registry) (k : UniqueRequest) : Bool :=
  reg.any (fun p => p.1 = k)

def rLookup (reg : Registry) (k : UniqueRequest) : Option Nat :=
  (reg.find? (fun p => p.1 = k)).map (fun p => p.2)

def rErase (reg : Registry) (k : UniqueRequest) : Registry :=
  reg.filter (fun p => ¬(p.1 = k))

def rInsert (reg : Registry) (k : UniqueRequest) (v : Nat) : Registry :=
  (k, v) :: rErase reg k

/-- Ghost trace entry: one backend call together with the status the
backend returned for it. -/
inductive BackendCall where
  | changeRefcount (id : ObjectId) (change_by : Int) (st : EnumStatus)
  | getObjectInfo (id : ObjectId) (st : EnumStatus)
  | pread (id : ObjectId) (offset : Nat) (size : Nat) (st : EnumStatus)
  | startTxn (id : ObjectId) (txn_id : Nat) (st : EnumStatus)
  | writeTxn (txn_id : Nat) (size : Nat) (st : EnumStatus)
  | commitTxn (txn_id : Nat) (st : EnumStatus)
  | abortTxn (txn_id : Nat) (st : EnumStatus)
  | getInfo (st : EnumStatus)
  | shrink (shrink_to : Nat) (st : EnumStatus)
  | listingBegin (lst_id : Nat) (st : EnumStatus)
  | listingEnd (lst_id : Nat)
deriving DecidableEq, Repr

/-- The abstract backend port (§4.8): an oracle of pure functions.  Pread
returns the status together with the number of bytes actually read; GetInfo
and Shrink return their out-parameters alongside the status. -/
structure Backend where
  changeRefcount : ObjectId → Int → EnumStatus
  getObjectInfo : ObjectId → EnumStatus × ObjectInfo
  pread : ObjectId → Nat → Nat → EnumStatus × Nat
  startTxn : ObjectId → Nat → ObjectInfo → EnumStatus
  writeTxn : Nat → Nat → EnumStatus
  commitTxn : Nat → EnumStatus
  abortTxn : Nat → EnumStatus
  getInfo : EnumStatus × Info
  shrink : Nat → EnumStatus × Nat

/-- cvmfs::MsgReadReq. -/
structure ReadReq where
  req_id : Nat
  object_id : MsgHash
  offset : Nat
  size : Nat
deriving DecidableEq, Repr

/-- cvmfs::MsgReadReply (attachment modelled by its size). -/
structure ReadReply where
  req_id : Nat
  status : EnumStatus
  attachment : Option Nat
deriving DecidableEq, Repr

structure ReadEffect where
  reply : ReadReply
  calls : List BackendCall
deriving DecidableEq, Repr

/-- CachePlugin::HandleRead (channel.cc lines 174-203). -/
def handleRead (B : Backend) (max_object_size : Nat) (msg : ReadReq) :
    ReadEffect :=
  match parseMsgHash msg.object_id with
  | none => ⟨⟨msg.req_id, EnumStatus.MALFORMED, none⟩, []⟩
  | some object_id =>
    if max_object_size < msg.size then
      ⟨⟨msg.req_id, EnumStatus.MALFORMED, none⟩, []⟩
    else
      let r := B.pread object_id msg.offset msg.size
      ⟨⟨msg.req_id, r.1, if r.1 = EnumStatus.OK then some r.2 else none⟩,
        [BackendCall.pread object_id msg.offset msg.size r.1]⟩

/-- cvmfs::MsgRefcountReq. -/
structure RefcountReq where
  req_id : Nat
  object_id : MsgHash
  change_by : Int
deriving DecidableEq, Repr

structure RefcountReply where
  req_id : Nat
  status : EnumStatus
deriving DecidableEq, Repr

structure RefcountEffect where
  reply : RefcountReply
  calls : List BackendCall
deriving DecidableEq, Repr

/-- CachePlugin::HandleRefcount (channel.cc lines 206-223). -/
def handleRefcount (B : Backend) (msg : RefcountReq) : RefcountEffect :=
  match parseMsgHash msg.object_id with
  | none => ⟨⟨msg.req_id, EnumStatus.MALFORMED⟩, []⟩
  | some object_id =>
    let st := B.changeRefcount object_id msg.change_by
    ⟨⟨msg.req_id, st⟩, [BackendCall.changeRefcount object_id msg.change_by st]⟩

/-- cvmfs::MsgObjectInfoReq. -/
structure ObjectInfoReq where
  req_id : Nat
  object_id : MsgHash
deriving DecidableEq, Repr

structure ObjectInfoReply where
  req_id : Nat
  status : EnumStatus
  object_type : Option ObjectType
  size : Option Nat
deriving DecidableEq, Repr

structure ObjectInfoEffect where
  reply : ObjectInfoReply
  calls : List BackendCall
deriving DecidableEq, Repr

/-- CachePlugin::HandleObjectInfo (channel.cc lines 149-171). -/
def handleObjectInfo (B : Backend) (msg : ObjectInfoReq) : ObjectInfoEffect :=
  match parseMsgHash msg.object_id with
  | none => ⟨⟨msg.req_id, EnumStatus.MALFORMED, none, none⟩, []⟩
  | some object_id =>
    let r := B.getObjectInfo object_id
    if r.1 = EnumStatus.OK then
      ⟨⟨msg.req_id, r.1, some r.2.object_type, some r.2.size⟩,
        [BackendCall.getObjectInfo object_id r.1]⟩
    else
      ⟨⟨msg.req_id, r.1, none, none⟩, [BackendCall.getObjectInfo object_id r.1]⟩

/-- cvmfs::MsgStoreReq.  The attachment travels in the frame; its size is
passed to the handler separately, as frame->att_size() is in the code. -/
structure StoreReq where
  req_id : Nat
  session_id : Nat
  object_id : MsgHash
  part_nr : Nat
  expected_size : Option Nat
  last_part : Bool
  object_type : Option ObjectType
  description : Option String
deriving DecidableEq, Repr

/-- cvmfs::MsgStoreReply. -/
structure StoreReply where
  req_id : Nat
  part_nr : Nat
  status : EnumStatus
deriving DecidableEq, Repr

/-- Result of a store/abort handler: the reply, the transaction registry
after the handler, and the backend calls performed. -/
structure StoreEffect where
  reply : StoreReply
  registry : Registry
  calls : List BackendCall
deriving DecidableEq, Repr

/-- The ObjectInfo built by HandleStore for part 1 from the optional
expected_size, object_type and description fields (channel.cc lines
357-361). -/
def storeObjectInfo (object_id : ObjectId) (msg : StoreReq) : ObjectInfo :=
  { id := object_id
    object_type := msg.object_type.getD ObjectType.regular
    size := msg.expected_size.getD kSizeUnknown
    pinned := false
    description := msg.description.getD "" }

/-- How the key-resolution phase of HandleStore can fail. -/
inductive ResolveFail where
  | malformed
  | startFailed (st : EnumStatus) (calls : List BackendCall)
deriving DecidableEq, Repr

/-- Key resolution of HandleStore (channel.cc lines 345-377): part 1
rejects an already-registered key, allocates a transaction, starts it and
inserts the registry entry; later parts look the transaction up.  On
success it yields the transaction id, the registry as it stands after
resolution, and the backend calls made so far. -/
def storeResolve (B : Backend) (reg : Registry) (freshTxn : Nat)
    (msg : StoreReq) (object_id : ObjectId) :
    Except ResolveFail (Nat × Registry × List BackendCall) :=
  let k : UniqueRequest := ⟨msg.session_id, msg.req_id⟩
  if msg.part_nr = 1 then
    if rContains reg k then
      Except.error ResolveFail.malformed
    else
      let info := storeObjectInfo object_id msg
      let st := B.startTxn object_id freshTxn info
      if st = EnumStatus.OK then
        Except.ok (freshTxn, rInsert reg k freshTxn,
          [BackendCall.startTxn object_id freshTxn st])
      else
        Except.error (ResolveFail.startFailed st
          [BackendCall.startTxn object_id freshTxn st])
  else
    match rLookup reg k with
    | none => Except.error ResolveFail.malformed
    | some txn_id => Except.ok (txn_id, reg, [])

/-- Tail of HandleStore after a successful write phase (channel.cc lines
391-396): on last_part commit the transaction and erase the registry entry
unconditionally; otherwise reply OK. -/
def storeFinish (B : Backend) (msg : StoreReq) (k : UniqueRequest)
    (txn_id : Nat) (reg : Registry) (calls : List BackendCall) : StoreEffect :=
  if msg.last_part then
    let cst := B.commitTxn txn_id
    ⟨⟨msg.req_id, msg.part_nr, cst⟩, rErase reg k,
      calls ++ [BackendCall.commitTxn txn_id cst]⟩
  else
    ⟨⟨msg.req_id, msg.part_nr, EnumStatus.OK⟩, reg, calls⟩

/-- CachePlugin::HandleStore (channel.cc lines 325-397).  freshTxn is the
id NextTxnId() would allocate for a part-1 request. -/
def handleStore (B : Backend) (max_object_size : Nat) (msg : StoreReq)
    (attSize : Nat) (reg : Registry) (freshTxn : Nat) : StoreEffect :=
  let k : UniqueRequest := ⟨msg.session_id, msg.req_id⟩
  match parseMsgHash msg.object_id with
  | none => ⟨⟨msg.req_id, msg.part_nr, EnumStatus.MALFORMED⟩, reg, []⟩
  | some object_id =>
    if max_object_size < attSize ∨
        (attSize < max_object_size ∧ msg.last_part = false) then
      ⟨⟨msg.req_id, msg.part_nr, EnumStatus.MALFORMED⟩, reg, []⟩
    else
      match storeResolve B reg freshTxn msg object_id with
      | Except.error ResolveFail.malformed =>
        ⟨⟨msg.req_id, msg.part_nr, EnumStatus.MALFORMED⟩, reg, []⟩
      | Except.error (ResolveFail.startFailed st calls) =>
        ⟨⟨msg.req_id, msg.part_nr, st⟩, reg, calls⟩
      | Except.ok (txn_id, reg1, calls1) =>
        if 0 < attSize then
          let wst := B.writeTxn txn_id attSize
          if wst = EnumStatus.OK then
            storeFinish B msg k txn_id reg1
              (calls1 ++ [BackendCall.writeTxn txn_id attSize wst])
          else
            ⟨⟨msg.req_id, msg.part_nr, wst⟩, reg1,
              calls1 ++ [BackendCall.writeTxn txn_id attSize wst]⟩
        else
          storeFinish B msg k txn_id reg1 calls1

/-- cvmfs::MsgStoreAbortReq. -/
structure StoreAbortReq where
  req_id : Nat
  session_id : Nat
deriving DecidableEq, Repr

/-- CachePlugin::HandleStoreAbort (channel.cc lines 303-322). -/
def handleStoreAbort (B : Backend) (msg : StoreAbortReq) (reg : Registry) :
    StoreEffect :=
  let k : UniqueRequest := ⟨msg.session_id, msg.req_id⟩
  match rLookup reg k with
  | none => ⟨⟨msg.req_id, 0, EnumStatus.MALFORMED⟩, reg, []⟩
  | some txn_id =>
    let st := B.abortTxn txn_id
    ⟨⟨msg.req_id, 0, st⟩, rErase reg k, [BackendCall.abortTxn txn_id st]⟩

/-- cvmfs::MsgInfoReq. -/
structure InfoReq where
  req_id : Nat
deriving DecidableEq, Repr

/-- cvmfs::MsgInfoReply. -/
structure InfoReply where
  req_id : Nat
  size_bytes : Nat
  used_bytes : Nat
  pinned_bytes : Nat
  no_shrink : Bool
  status : EnumStatus
deriving DecidableEq, Repr

structure InfoEffect where
  reply : InfoReply
  calls : List BackendCall
deriving DecidableEq, Repr

/-- CachePlugin::HandleInfo (channel.cc lines 80-96): GetInfo is called
unconditionally and its status is forwarded in the reply. -/
def handleInfo (B : Backend) (msg : InfoReq) : InfoEffect :=
  let r := B.getInfo
  ⟨⟨msg.req_id, r.2.size_bytes, r.2.used_bytes, r.2.pinned_bytes,
      r.2.no_shrink, r.1⟩,
    [BackendCall.getInfo r.1]⟩

/-- cvmfs::MsgShrinkReq. -/
structure ShrinkReq where
  req_id : Nat
  shrink_to : Nat
deriving DecidableEq, Repr

/-- cvmfs::MsgShrinkReply. -/
structure ShrinkReply where
  req_id : Nat
  used_bytes : Nat
  status : EnumStatus
deriving DecidableEq, Repr

structure ShrinkEffect where
  reply : ShrinkReply
  calls : List BackendCall
deriving DecidableEq, Repr

/-- CachePlugin::HandleShrink (channel.cc lines 287-300). -/
def handleShrink (B : Backend) (msg : ShrinkReq) : ShrinkEffect :=
  let r := B.shrink msg.shrink_to
  ⟨⟨msg.req_id, r.2, r.1⟩, [BackendCall.shrink msg.shrink_to r.1]⟩

/-- cvmfs::MsgListReq. -/
structure ListReq where
  req_id : Nat
  listing_id : Nat
  object_type : ObjectType
deriving DecidableEq, Repr

/-- cvmfs::MsgListRecord: hash, pinned flag and description. -/
structure ListRecord where
  hash : ObjectId
  pinned : Bool
  description : String
deriving DecidableEq, Repr

/-- cvmfs::MsgListReply. -/
structure ListReply where
  req_id : Nat
  listing_id : Nat
  is_last_part : Bool
  status : EnumStatus
  list_record : List ListRecord
deriving DecidableEq, Repr

/-- The record HandleList appends for one listed item (channel.cc lines
127-132). -/
def mkListRecord (item : ObjectInfo) : ListRecord :=
  ⟨item.id, item.pinned, item.description⟩

/-- Modelled from the spec: kListingSize is declared in channel.h (not
among the sources); §4.7 only requires a fixed reply-size budget.  The
value is immaterial to the theorems below. -/
def kListingSize : Nat := 4000000

/-- The per-item size approximation of channel.cc line 134,
sizeof(item) + item.description.length(), with sizeof(item) a fixed
constant. -/
def listItemSize (item : ObjectInfo) : Nat :=
  64 + item.description.length

/-- One ListingNext call is modelled by popping the head of a result
stream; an exhausted stream keeps answering OUTOFBOUNDS, matching a
backend cursor at end of data. -/
def lnextStream := List (EnumStatus × ObjectInfo)

/-- The ListingNext loop of HandleList (channel.cc lines 124-137): append
records while the backend answers OK, breaking once the approximate reply
size exceeds the budget.  Returns the records, the final value of the
status variable and the unconsumed remainder of the stream. -/
def listLoop (stream : List (EnumStatus × ObjectInfo)) (total_size : Nat) :
    List ListRecord × EnumStatus × List (EnumStatus × ObjectInfo) :=
  match stream with
  | [] => ([], EnumStatus.OUTOFBOUNDS, [])
  | (st, item) :: rest =>
    if st = EnumStatus.OK then
      let total := total_size + listItemSize item
      if kListingSize < total then
        ([mkListRecord item], EnumStatus.OK, rest)
      else
        let r := listLoop rest total
        (mkListRecord item :: r.1, r.2.1, r.2.2)
    else
      ([], st, rest)

/-- Result of serving one ListReq page: the reply, the rest of the
backend's ListingNext stream, and the ListingBegin/ListingEnd calls made
(the ListingNext calls of the loop are left out of the ghost trace). -/
structure ListPageResult where
  reply : ListReply
  rest : List (EnumStatus × ObjectInfo)
  calls : List BackendCall
deriving DecidableEq, Repr

/-- The paging part of CachePlugin::HandleList (channel.cc lines 124-145),
serving one page of an already-begun listing: run the ListingNext loop;
on OUTOFBOUNDS call ListingEnd and convert the status to OK, leaving
is_last_part at its default true; otherwise set is_last_part to false and
keep the loop's status. -/
def handleListPage (req_id listing_id : Nat)
    (stream : List (EnumStatus × ObjectInfo)) : ListPageResult :=
  let r := listLoop stream 0
  if r.2.1 = EnumStatus.OUTOFBOUNDS then
    ⟨⟨req_id, listing_id, true, EnumStatus.OK, r.1⟩, r.2.2,
      [BackendCall.listingEnd listing_id]⟩
  else
    ⟨⟨req_id, listing_id, false, r.2.1, r.1⟩, r.2.2, []⟩

/-- CachePlugin::HandleList (channel.cc lines 99-146).  freshLst is the id
NextLstId() would allocate; beginStatus the result of ListingBegin for a
fresh listing; stream the backend's ListingNext results for the listing
being served. -/
def handleList (msg : ListReq) (freshLst : Nat) (beginStatus : EnumStatus)
    (stream : List (EnumStatus × ObjectInfo)) : ListPageResult :=
  if msg.listing_id = 0 then
    if beginStatus = EnumStatus.OK then
      let page := handleListPage msg.req_id freshLst stream
      ⟨page.reply, page.rest, BackendCall.listingBegin freshLst beginStatus :: page.calls⟩
    else
      ⟨⟨msg.req_id, 0, true, beginStatus, []⟩, stream,
        [BackendCall.listingBegin freshLst beginStatus]⟩
  else
    handleListPage msg.req_id msg.listing_id stream

/-- An honest backend cursor over a fixed item list: every ListingNext
answers OK with the next item, then OUTOFBOUNDS at the end. -/
def okStream (items : List ObjectInfo) : List (EnumStatus × ObjectInfo) :=
  items.map (fun item => (EnumStatus.OK, item))

/-- The client's pagination loop: issue ListReq pages against the cursor
until a reply carries is_last_part = true, concatenating the list_record
sequences.  Structural recursion on a fuel argument; pages never grow the
stream, so stream length + 1 fuel always suffices (the first page with
listing_id = 0 defers to the same page function once ListingBegin
succeeded). -/
def paginateAux (fuel : Nat) (stream : List (EnumStatus × ObjectInfo)) :
    List ListRecord :=
  match fuel with
  | 0 => []
  | fuel + 1 =>
    let page := handleListPage 0 1 stream
    if page.reply.is_last_part then
      page.reply.list_record
    else
      page.reply.list_record ++ paginateAux fuel page.rest

/-- All records a client collects by paginating one listing to the end. -/
def paginatePages (stream : List (EnumStatus × ObjectInfo)) :
    List ListRecord :=
  paginateAux (stream.length + 1) stream

/-- The items one page of the ListingNext loop consumes from an honest
cursor (mirror of listLoop restricted to okStream): the consumed page and
the remaining items. -/
def consumePage : List ObjectInfo → Nat → List ObjectInfo × List ObjectInfo
  | [], _ => ([], [])
  | item :: rest, total_size =>
    let total := total_size + listItemSize item
    if kListingSize < total then
      ([item], rest)
    else
      let r := consumePage rest total
      (item :: r.1, r.2)

/-- The final status of the ListingNext loop on an honest cursor:
OUTOFBOUNDS when the cursor is exhausted, OK when the budget was hit. -/
def pageStatus : List ObjectInfo → Nat → EnumStatus
  | [], _ => EnumStatus.OUTOFBOUNDS
  | item :: rest, total_size =>
    let total := total_size + listItemSize item
    if kListingSize < total then EnumStatus.OK else pageStatus rest total

/-- One decoded request frame, as dispatched by HandleRequest; quit, an
unknown message type and a frame-decode failure are the three dispatcher
outcomes that return false. -/
inductive Request where
  | handshake
  | quit
  | refcount (msg : RefcountReq)
  | objectInfo (msg : ObjectInfoReq)
  | read (msg : ReadReq)
  | store (msg : StoreReq) (attSize : Nat)
  | storeAbort (msg : StoreAbortReq)
  | info (msg : InfoReq)
  | shrink (msg : ShrinkReq)
  | list (msg : ListReq)
  | unknownMessage
  | decodeFailure
deriving DecidableEq, Repr

/-- Modelled from the spec: kPbProtocolVersion is declared in channel.h
(not among the sources); the handshake ack carries it verbatim. -/
def kPbProtocolVersion : Nat := 1

/-- One reply frame. -/
inductive ReplyMsg where
  | handshakeAck (status : EnumStatus) (name : String) (protocol_version : Nat)
      (max_object_size : Nat) (session_id : Nat) (capabilities : Nat)
  | readReply (r : ReadReply)
  | refcountReply (r : RefcountReply)
  | objectInfoReply (r : ObjectInfoReply)
  | storeReply (r : StoreReply)
  | infoReply (r : InfoReply)
  | shrinkReply (r : ShrinkReply)
  | listReply (r : ListReply)
deriving DecidableEq, Repr

/-- The status carried by a reply frame. -/
def replyStatus : ReplyMsg → EnumStatus
  | ReplyMsg.handshakeAck st _ _ _ _ _ => st
  | ReplyMsg.readReply r => r.status
  | ReplyMsg.refcountReply r => r.status
  | ReplyMsg.objectInfoReply r => r.status
  | ReplyMsg.storeReply r => r.status
  | ReplyMsg.infoReply r => r.status
  | ReplyMsg.shrinkReply r => r.status
  | ReplyMsg.listReply r => r.status

/-- Result of CachePlugin::HandleRequest on one decoded frame: whether the
connection is kept (the dispatcher's boolean), the reply sent if any, the
transaction registry afterwards, and the backend calls performed. -/
structure HandleResult where
  proceed : Bool
  reply : Option ReplyMsg
  registry : Registry
  calls : List BackendCall
deriving DecidableEq, Repr

/-- The status of the reply a dispatch produced, if it produced one. -/
def resultStatus (r : HandleResult) : Option EnumStatus :=
  r.reply.map replyStatus

/-- CachePlugin::HandleHandshake (channel.cc lines 66-77). -/
def handleHandshake (name : String) (capabilities max_object_size
    freshSession : Nat) : ReplyMsg :=
  ReplyMsg.handshakeAck EnumStatus.OK name kPbProtocolVersion
    max_object_size freshSession capabilities

/-- CachePlugin::HandleRequest (channel.cc lines 226-284): branch on the
message kind and run the matching handler.  The capability mask is carried
only into the handshake ack; no handler consults it.  freshSession,
freshTxn and freshLst are the ids the respective allocators would hand
out; beginStatus and stream stand for the backend's listing answers. -/
def handleRequest (capabilities : Nat) (name : String) (B : Backend)
    (max_object_size : Nat) (reg : Registry)
    (freshSession freshTxn freshLst : Nat) (beginStatus : EnumStatus)
    (stream : List (EnumStatus × ObjectInfo)) (req : Request) :
    HandleResult :=
  match req with
  | Request.handshake =>
    ⟨true, some (handleHandshake name capabilities max_object_size
      freshSession), reg, []⟩
  | Request.quit => ⟨false, none, reg, []⟩
  | Request.refcount msg =>
    let e := handleRefcount B msg
    ⟨true, some (ReplyMsg.refcountReply e.reply), reg, e.calls⟩
  | Request.objectInfo msg =>
    let e := handleObjectInfo B msg
    ⟨true, some (ReplyMsg.objectInfoReply e.reply), reg, e.calls⟩
  | Request.read msg =>
    let e := handleRead B max_object_size msg
    ⟨true, some (ReplyMsg.readReply e.reply), reg, e.calls⟩
  | Request.store msg attSize =>
    let e := handleStore B max_object_size msg attSize reg freshTxn
    ⟨true, some (ReplyMsg.storeReply e.reply), e.registry, e.calls⟩
  | Request.storeAbort msg =>
    let e := handleStoreAbort B msg reg
    ⟨true, some (ReplyMsg.storeReply e.reply), e.registry, e.calls⟩
  | Request.info msg =>
    let e := handleInfo B msg
    ⟨true, some (ReplyMsg.infoReply e.reply), reg, e.calls⟩
  | Request.shrink msg =>
    let e := handleShrink B msg
    ⟨true, some (ReplyMsg.shrinkReply e.reply), reg, e.calls⟩
  | Request.list msg =>
    let e := handleList msg freshLst beginStatus stream
    ⟨true, some (ReplyMsg.listReply e.reply), reg, e.calls⟩
  | Request.unknownMessage => ⟨false, none, reg, []⟩
  | Request.decodeFailure => ⟨false, none, reg, []⟩

/-- State of the I/O supervisor relevant to connection teardown: the
watched pollfd vector (elements 0 and 1 are the control pipe and the
listening socket) and the connection set connections_. -/
structure SupState where
  watchFds : List Nat
  connections : List Nat
deriving DecidableEq, Repr

/-- The dispatcher-returned-false branch of MainProcessRequests
(channel.cc lines 496-500), faithful to the statement order of the code:
close(watch_fds[i].fd), then watch_fds.erase(watch_fds.begin() + i), then
connections_.erase(watch_fds[i].fd).  After the vector erase, index i
denotes the element that followed the erased one (and is past the end
when the erased element was last, modelled by getD with default 0), so
the value removed from the connection set is read from the shifted
vector.  Returns the fd that was closed and the state afterwards. -/
def supervisorCloseConn (s : SupState) (i : Nat) : Nat × SupState :=
  let closedFd := s.watchFds.getD i 0
  let watchFds := s.watchFds.eraseIdx i
  let erasedFd := watchFds.getD i 0
  (closedFd, ⟨watchFds, s.connections.filter (fun fd => fd ≠ erasedFd)⟩)

/-- Modelled from the spec: NextSessionId, NextTxnId and NextLstId are
inline atomic fetch-and-add counters declared in channel.h (not among the
sources).  §4.2 specifies three independent monotonically increasing
counters whose increment-and-return is atomic; an allocation returns the
current state and advances it. -/
def nextIdValue (state : Nat) : Nat × Nat := (state, state + 1)

/-- Counter state after n allocations. -/
def counterStateAfter (state0 : Nat) : Nat → Nat
  | 0 => state0
  | n + 1 => (nextIdValue (counterStateAfter state0 n)).2

/-- The n-th id (counting from 0) handed out by a counter initialized at
state0. -/
def allocatedId (state0 n : Nat) : Nat :=
  (nextIdValue (counterStateAfter state0 n)).1

/-- Initial session counter state (atomic_init64, channel.cc line 44). -/
def sessionCounterInit : Nat := 0

/-- Initial transaction counter state (atomic_init64, channel.cc line
45). -/
def txnCounterInit : Nat := 0

/-- Initial listing counter state: atomic_init64 followed by one
atomic_inc64 so listing id zero is never used (channel.cc lines 46-48). -/
def lstCounterInit : Nat := 1

/-- A store-path operation processed by the channel, for runs that
exercise the transaction registry. -/
inductive ChanOp where
  | store (msg : StoreReq) (attSize : Nat)
  | storeAbort (msg : StoreAbortReq)
deriving DecidableEq, Repr

/-- Channel state threaded through a run: the transaction registry, the
transaction counter, and the accumulated backend-call trace. -/
structure ChanState where
  registry : Registry
  nextTxn : Nat
  trace : List BackendCall
deriving DecidableEq, Repr

/-- Whether a trace entry is a StartTxn call.  HandleStore calls
NextTxnId exactly on the path that then calls StartTxn (channel.cc lines
348-362), so a step consumed a fresh transaction id iff its trace holds a
StartTxn entry. -/
def isStartTxnCall : BackendCall → Bool
  | BackendCall.startTxn _ _ _ => true
  | _ => false

/-- One channel step: dispatch the operation against the current registry,
advancing the transaction counter when the handler consumed the fresh
id. -/
def chanStep (B : Backend) (max_object_size : Nat) (s : ChanState)
    (op : ChanOp) : ChanState :=
  match op with
  | ChanOp.store msg attSize =>
    let e := handleStore B max_object_size msg attSize s.registry s.nextTxn
    ⟨e.registry,
      if e.calls.any isStartTxnCall then s.nextTxn + 1 else s.nextTxn,
      s.trace ++ e.calls⟩
  | ChanOp.storeAbort msg =>
    let e := handleStoreAbort B msg s.registry
    ⟨e.registry, s.nextTxn, s.trace ++ e.calls⟩

/-- A run of the channel from an empty registry (daemon start: the
registry is created empty and the transaction counter initialized). -/
def chanRun (B : Backend) (max_object_size : Nat) (ops : List ChanOp) :
    ChanState :=
  ops.foldl (chanStep B max_object_size) ⟨[], txnCounterInit, []⟩

/-- Modelled from the spec: the backend's set of open transactions (§3: a
transaction is created by StartTxn and terminated by exactly one of
CommitTxn or AbortTxn).  A successful StartTxn opens its transaction id;
CommitTxn and AbortTxn terminate it whatever their status; other calls
leave the set unchanged. -/
def openTxnsStep (s : List Nat) : BackendCall → List Nat
  | BackendCall.startTxn _ txn_id st =>
    if st = EnumStatus.OK then txn_id :: s else s
  | BackendCall.commitTxn txn_id _ => s.filter (fun t => t ≠ txn_id)
  | BackendCall.abortTxn txn_id _ => s.filter (fun t => t ≠ txn_id)
  | _ => s

/-- The transactions open at the backend after a call trace. -/
def openTxns (trace : List BackendCall) : List Nat :=
  trace.foldl openTxnsStep []

/-- The registry/backend correspondence of §3 and §4.6: registry keys are
unique, registered transaction ids are unique, and an id is registered
under some key iff the backend holds it open. -/
def RegistryInv (s : ChanState) : Prop :=
  (s.registry.map Prod.fst).Nodup ∧
  (s.registry.map Prod.snd).Nodup ∧
  (∀ p ∈ s.registry, p.2 < s.nextTxn) ∧
  (∀ t ∈ openTxns s.trace, t < s.nextTxn) ∧
  (∀ t, (∃ k, rLookup s.registry k = some t) ↔ t ∈ openTxns s.trace)

/-- Core form of the registry/backend correspondence, over a registry, the
transaction-counter state and the list of transactions open at the
backend. -/
def InvCore (reg : Registry) (ctr : Nat) (opens : List Nat) : Prop :=
  (reg.map Prod.fst).Nodup ∧
  (reg.map Prod.snd).Nodup ∧
  (∀ p ∈ reg, p.2 < ctr) ∧
  (∀ t ∈ opens, t < ctr) ∧
  (∀ t, (∃ k, rLookup reg k = some t) ↔ t ∈ opens)

end CvmfsChannel

namespace PolyCtor

/-- The decision value of t_polymorphic_construction.cc. -/
structure DecisionType where
  type : Int
  fail : Bool
deriving DecidableEq, Repr

/-- Introspection record of t_polymorphic_construction.cc. -/
structure IntrospectionType where
  message : String
  type : Int
deriving DecidableEq, Repr

/-- Modelled from the spec: PolymorphicConstruction lives in
cvmfs/util.h (not among the sources); §9 requires a registry of backend
factories selectable by a decision value.  A factory carries its
WillHandle predicate, its introspection record and the tag of the
concrete class it constructs; a constructed instance is modelled by that
tag. -/
structure PluginFactory where
  willHandle : DecisionType → Bool
  info : IntrospectionType
  tag : Int

/-- FirstPolyCtorMock: handles type 0. -/
def firstMock : PluginFactory :=
  ⟨fun p => p.type = 0, ⟨"Hello from First.", 0⟩, 0⟩

/-- SecondPolyCtorMock: handles type 1. -/
def secondMock : PluginFactory :=
  ⟨fun p => p.type = 1, ⟨"Second calling!", 1⟩, 1⟩

/-- ThirdPolyCtorMock: handles type 2. -/
def thirdMock : PluginFactory :=
  ⟨fun p => p.type = 2, ⟨"Third from afar.", 2⟩, 2⟩

/-- The plugin list registered by AbstractPolyCtorMock::RegisterPlugins. -/
def mockPlugins : List PluginFactory := [firstMock, secondMock, thirdMock]

/-- Per-process registration state: whether RegisterPlugins already ran,
the registered factories, and how often RegisterPlugins was invoked. -/
structure PluginState where
  registered : Bool
  plugins : List PluginFactory
  register_plugin_calls : Nat

/-- Fresh process: nothing registered yet. -/
def initPluginState : PluginState := ⟨false, [], 0⟩

/-- Modelled from the spec: lazy registration — RegisterPlugins runs only
if it has not run in this process yet. -/
def lazilyRegisterPlugins (s : PluginState) : PluginState :=
  if s.registered then s
  else ⟨true, mockPlugins, s.register_plugin_calls + 1⟩

/-- Modelled from the spec: Construct — ensure registration, then return
an instance of the first registered factory whose WillHandle accepts the
decision value, and no instance when none accepts. -/
def construct (s : PluginState) (param : DecisionType) :
    PluginState × Option Int :=
  let s1 := lazilyRegisterPlugins s
  (s1, (s1.plugins.find? (fun f => f.willHandle param)).map (fun f => f.tag))

/-- Modelled from the spec: Introspect — ensure registration, then list
every registered factory's introspection record. -/
def introspect (s : PluginState) : PluginState × List IntrospectionType :=
  let s1 := lazilyRegisterPlugins s
  (s1, s1.plugins.map (fun f => f.info))

/-- One call against the process-wide registry. -/
inductive PluginOp where
  | construct (param : DecisionType)
  | introspect

/-- Process state after a sequence of Construct/Introspect calls. -/
def pluginRun (ops : List PluginOp) : PluginState :=
  ops.foldl
    (fun s op =>
      match op with
      | PluginOp.construct p => (construct s p).1
      | PluginOp.introspect => (introspect s).1)
    initPluginState

end PolyCtor

namespace CvmfsChannel

/-- A parseable wire hash (known algorithm, full-width digest). -/
def goodHash : MsgHash := ⟨1, List.replicate 20 0⟩

/-- An unparseable wire hash (unknown algorithm, empty digest). -/
def badHash : MsgHash := ⟨0, []⟩

/-- A backend oracle answering every call with the given status. -/
def constBackend (st : EnumStatus) : Backend :=
  { changeRefcount := fun _ _ => st
    getObjectInfo := fun _ => (st, default)
    pread := fun _ _ size => (st, size)
    startTxn := fun _ _ _ => st
    writeTxn := fun _ _ => st
    commitTxn := fun _ => st
    abortTxn := fun _ => st
    getInfo := (st, ⟨0, 0, 0, false⟩)
    shrink := fun _ => (st, 0) }

/-- A backend that accepts everything except WriteTxn. -/
def writeFailBackend : Backend :=
  { constBackend EnumStatus.OK with writeTxn := fun _ _ => EnumStatus.IOERR }

/-- A backend that accepts everything except CommitTxn. -/
def commitFailBackend : Backend :=
  { constBackend EnumStatus.OK with commitTxn := fun _ => EnumStatus.IOERR }

end CvmfsChannel

namespace CvmfsChannel

theorem rLookup_cons (a : UniqueRequest) (b : Nat) (reg : Registry)
    (k : UniqueRequest) :
    rLookup ((a, b) :: reg) k = if a = k then some b else rLookup reg k := by
  by_cases h : a = k <;> simp [rLookup, List.find?_cons, h]

theorem rErase_cons (a : UniqueRequest) (b : Nat) (reg : Registry)
    (k : UniqueRequest) :
    rErase ((a, b) :: reg) k =
      if a = k then rErase reg k else (a, b) :: rErase reg k := by
  by_cases h : a = k <;> simp [rErase, List.filter_cons, h]

theorem rContains_cons (a : UniqueRequest) (b : Nat) (reg : Registry)
    (k : UniqueRequest) :
    rContains ((a, b) :: reg) k = (decide (a = k) || rContains reg k) := by
  simp [rContains]

theorem rContains_false_lookup_none (reg : Registry) (k : UniqueRequest)
    (h : rContains reg k = false) : rLookup reg k = none := by
  induction reg with
  | nil => rfl
  | cons p reg ih =>
    obtain ⟨a, b⟩ := p
    rw [rContains_cons] at h
    rcases Bool.or_eq_false_iff.mp h with ⟨h1, h2⟩
    rw [rLookup_cons, if_neg (by simpa using h1)]
    exact ih h2

theorem rContains_false_erase (reg : Registry) (k : UniqueRequest)
    (h : rContains reg k = false) : rErase reg k = reg := by
  induction reg with
  | nil => rfl
  | cons p reg ih =>
    obtain ⟨a, b⟩ := p
    rw [rContains_cons] at h
    rcases Bool.or_eq_false_iff.mp h with ⟨h1, h2⟩
    rw [rErase_cons, if_neg (by simpa using h1), ih h2]

theorem rLookup_erase (reg : Registry) (k k2 : UniqueRequest) :
    rLookup (rErase reg k) k2 =
      if k2 = k then none else rLookup reg k2 := by
  induction reg with
  | nil => by_cases h : k2 = k <;> simp [rErase, rLookup, h]
  | cons p reg ih =>
    obtain ⟨a, b⟩ := p
    by_cases hak : a = k
    · subst hak
      rw [rErase_cons, if_pos rfl, ih, rLookup_cons]
      by_cases h2 : k2 = a
      · simp [h2]
      · have hak2 : ¬(a = k2) := fun hc => h2 hc.symm
        simp [h2, hak2]
    · rw [rErase_cons, if_neg hak, rLookup_cons, rLookup_cons, ih]
      by_cases hak2 : a = k2 <;> by_cases hkk : k2 = k <;>
        simp [hak2, hkk] <;>
        first
        | exact hak
        | exact absurd (hak2.trans hkk) hak

theorem rContains_erase_self (reg : Registry) (k : UniqueRequest) :
    rContains (rErase reg k) k = false := by
  induction reg with
  | nil => rfl
  | cons p reg ih =>
    obtain ⟨a, b⟩ := p
    rw [rErase_cons]
    by_cases h : a = k
    · simpa [h] using ih
    · rw [if_neg h, rContains_cons, ih]
      simp [h]

end CvmfsChannel

namespace CvmfsChannel

/-- C1: for every received request, a ReadReq with size > max_object_size,
a StoreReq whose attachment exceeds max_object_size, a StoreReq whose
attachment is strictly smaller than max_object_size without last_part, any
request whose object hash fails to parse, and a StoreReq with part_nr = 1
whose (session_id, req_id) key is already registered are all answered with
status MALFORMED, with no backend call and no change to the transaction
registry. -/
theorem malformed_gate (B : Backend) (max_object_size : Nat)
    (reg : Registry) (freshTxn : Nat) :
    (∀ msg : ReadReq,
      parseMsgHash msg.object_id = none ∨ max_object_size < msg.size →
      (handleRead B max_object_size msg).reply.status = EnumStatus.MALFORMED ∧
      (handleRead B max_object_size msg).calls = []) ∧
    (∀ (msg : StoreReq) (attSize : Nat),
      parseMsgHash msg.object_id = none ∨ max_object_size < attSize ∨
        (attSize < max_object_size ∧ msg.last_part = false) →
      (handleStore B max_object_size msg attSize reg freshTxn).reply.status =
        EnumStatus.MALFORMED ∧
      (handleStore B max_object_size msg attSize reg freshTxn).calls = [] ∧
      (handleStore B max_object_size msg attSize reg freshTxn).registry = reg) ∧
    (∀ (msg : StoreReq) (attSize : Nat),
      msg.part_nr = 1 →
      rContains reg ⟨msg.session_id, msg.req_id⟩ = true →
      (handleStore B max_object_size msg attSize reg freshTxn).reply.status =
        EnumStatus.MALFORMED ∧
      (handleStore B max_object_size msg attSize reg freshTxn).calls = [] ∧
      (handleStore B max_object_size msg attSize reg freshTxn).registry = reg) ∧
    (∀ msg : RefcountReq, parseMsgHash msg.object_id = none →
      (handleRefcount B msg).reply.status = EnumStatus.MALFORMED ∧
      (handleRefcount B msg).calls = []) ∧
    (∀ msg : ObjectInfoReq, parseMsgHash msg.object_id = none →
      (handleObjectInfo B msg).reply.status = EnumStatus.MALFORMED ∧
      (handleObjectInfo B msg).calls = []) := by
  refine ⟨?_, ?_, ?_, ?_, ?_⟩
  · intro msg h
    cases hp : parseMsgHash msg.object_id with
    | none => simp [handleRead, hp]
    | some oid =>
      have hsz : max_object_size < msg.size := by
        rcases h with h | h
        · rw [hp] at h; cases h
        · exact h
      simp [handleRead, hp, hsz]
  · intro msg attSize h
    cases hp : parseMsgHash msg.object_id with
    | none => simp [handleStore, hp]
    | some oid =>
      have hcond : max_object_size < attSize ∨
          (attSize < max_object_size ∧ msg.last_part = false) := by
        rcases h with h | h | h
        · rw [hp] at h; cases h
        · exact Or.inl h
        · exact Or.inr h
      simp [handleStore, hp, hcond]
  · intro msg attSize h1 h2
    cases hp : parseMsgHash msg.object_id with
    | none => simp [handleStore, hp]
    | some oid =>
      by_cases hcond : max_object_size < attSize ∨
          (attSize < max_object_size ∧ msg.last_part = false)
      · simp [handleStore, hp, hcond]
      · simp [handleStore, storeResolve, hp, hcond, h1, h2]
  · intro msg h
    simp [handleRefcount, h]
  · intro msg h
    simp [handleObjectInfo, h]

/-- Witness for malformed_gate: an oversize read and a duplicate part-1
store at concrete inputs. -/
theorem malformed_gate_witness :
    (handleRead (constBackend EnumStatus.OK) 1024
        ⟨7, goodHash, 0, 2048⟩).reply.status = EnumStatus.MALFORMED ∧
    (handleRead (constBackend EnumStatus.OK) 1024
        ⟨7, goodHash, 0, 2048⟩).calls = [] := by
  exact (malformed_gate (constBackend EnumStatus.OK) 1024 [] 0).1
    ⟨7, goodHash, 0, 2048⟩ (Or.inr (by decide))

end CvmfsChannel

namespace CvmfsChannel

theorem storeResolve_ok (B : Backend) (reg : Registry) (freshTxn : Nat)
    (msg : StoreReq) (object_id : ObjectId) (txn : Nat) (reg1 : Registry)
    (calls1 : List BackendCall)
    (h : storeResolve B reg freshTxn msg object_id =
      Except.ok (txn, reg1, calls1)) :
    rLookup reg1 ⟨msg.session_id, msg.req_id⟩ = some txn ∧
    (calls1 = [] ∨
      calls1 = [BackendCall.startTxn object_id freshTxn EnumStatus.OK]) ∧
    (msg.part_nr ≠ 1 → reg1 = reg) := by
  by_cases h1 : msg.part_nr = 1
  · by_cases hc : rContains reg ⟨msg.session_id, msg.req_id⟩
    · simp [storeResolve, h1, hc] at h
    · by_cases hst : B.startTxn object_id freshTxn
          (storeObjectInfo object_id msg) = EnumStatus.OK
      · simp [storeResolve, h1, hc, hst] at h
        obtain ⟨rfl, rfl, rfl⟩ := h
        refine ⟨?_, Or.inr (by simp [hst]), fun hne => absurd h1 hne⟩
        rw [rInsert, rLookup_cons, if_pos rfl]
      · simp [storeResolve, h1, hc, hst] at h
  · cases hl : rLookup reg ⟨msg.session_id, msg.req_id⟩ with
    | none => simp [storeResolve, h1, hl] at h
    | some t =>
      simp [storeResolve, h1, hl] at h
      obtain ⟨rfl, rfl, rfl⟩ := h
      exact ⟨hl, Or.inl rfl, fun _ => rfl⟩

end CvmfsChannel

namespace CvmfsChannel

/-- C5: for every StoreReq with a positive attachment whose WriteTxn call
fails, the reply carries the WriteTxn status, no CommitTxn is attempted
even when last_part is set, and the registry is exactly as it stood after
key resolution: the entry for (session_id, req_id) is left in place,
still mapping to the resolved transaction id (for parts ≥ 2 the registry
is the pre-request one unchanged). -/
theorem write_error_keeps_registry_entry (B : Backend)
    (max_object_size : Nat) (msg : StoreReq) (attSize : Nat)
    (reg : Registry) (freshTxn : Nat) (object_id : ObjectId) (txn : Nat)
    (reg1 : Registry) (calls1 : List BackendCall)
    (hp : parseMsgHash msg.object_id = some object_id)
    (hg : ¬(max_object_size < attSize ∨
      (attSize < max_object_size ∧ msg.last_part = false)))
    (hr : storeResolve B reg freshTxn msg object_id =
      Except.ok (txn, reg1, calls1))
    (ha : 0 < attSize)
    (hw : B.writeTxn txn attSize ≠ EnumStatus.OK) :
    (handleStore B max_object_size msg attSize reg freshTxn).reply.status =
      B.writeTxn txn attSize ∧
    (handleStore B max_object_size msg attSize reg freshTxn).registry =
      reg1 ∧
    rLookup (handleStore B max_object_size msg attSize reg freshTxn).registry
      ⟨msg.session_id, msg.req_id⟩ = some txn ∧
    (msg.part_nr ≠ 1 →
      (handleStore B max_object_size msg attSize reg freshTxn).registry =
        reg) ∧
    (∀ t st, BackendCall.commitTxn t st ∉
      (handleStore B max_object_size msg attSize reg freshTxn).calls) := by
  obtain ⟨hlook, hshape, hpart⟩ :=
    storeResolve_ok B reg freshTxn msg object_id txn reg1 calls1 hr
  have he : handleStore B max_object_size msg attSize reg freshTxn =
      ⟨⟨msg.req_id, msg.part_nr, B.writeTxn txn attSize⟩, reg1,
        calls1 ++ [BackendCall.writeTxn txn attSize
          (B.writeTxn txn attSize)]⟩ := by
    simp [handleStore, hp, hg, hr, ha, hw]
  rw [he]
  refine ⟨rfl, rfl, hlook, fun _ => hpart (by assumption), ?_⟩
  intro t st hmem
  rcases List.mem_append.mp hmem with hmem | hmem
  · rcases hshape with rfl | rfl
    · cases hmem
    · simp at hmem
  · simp at hmem

/-- Witness for write_error_keeps_registry_entry: a part-1 store of a full
attachment against a backend whose WriteTxn fails. -/
theorem write_error_keeps_registry_entry_witness :
    (handleStore writeFailBackend 8
        ⟨11, 3, goodHash, 1, none, false, none, none⟩ 8 [] 5).reply.status =
      EnumStatus.IOERR ∧
    rLookup (handleStore writeFailBackend 8
        ⟨11, 3, goodHash, 1, none, false, none, none⟩ 8 [] 5).registry
      ⟨3, 11⟩ = some 5 := by
  have h := write_error_keeps_registry_entry writeFailBackend 8
    ⟨11, 3, goodHash, 1, none, false, none, none⟩ 8 [] 5
    ⟨1, List.replicate 20 0⟩ 5 [(⟨3, 11⟩, 5)]
    [BackendCall.startTxn ⟨1, List.replicate 20 0⟩ 5 EnumStatus.OK]
    (by decide) (by decide) (by rfl) (by decide) (by decide)
  exact ⟨h.1, h.2.2.1⟩

end CvmfsChannel

namespace CvmfsChannel

/-- C10: a StoreReq with last_part set that reaches the commit step erases
the registry entry for its (session_id, req_id) key unconditionally — the
reply carries the CommitTxn status, which may be an error — and a
subsequent StoreAbortReq for the same key is answered MALFORMED with no
backend call, unlike a failed WriteTxn which leaves the entry in place. -/
theorem commit_erases_registry_entry (B : Backend) (max_object_size : Nat)
    (msg : StoreReq) (attSize : Nat) (reg : Registry) (freshTxn : Nat)
    (object_id : ObjectId) (txn : Nat) (reg1 : Registry)
    (calls1 : List BackendCall)
    (hp : parseMsgHash msg.object_id = some object_id)
    (hg : ¬(max_object_size < attSize ∨
      (attSize < max_object_size ∧ msg.last_part = false)))
    (hr : storeResolve B reg freshTxn msg object_id =
      Except.ok (txn, reg1, calls1))
    (hwr : attSize = 0 ∨ B.writeTxn txn attSize = EnumStatus.OK)
    (hl : msg.last_part = true) :
    (handleStore B max_object_size msg attSize reg freshTxn).registry =
      rErase reg1 ⟨msg.session_id, msg.req_id⟩ ∧
    rContains (handleStore B max_object_size msg attSize reg
      freshTxn).registry ⟨msg.session_id, msg.req_id⟩ = false ∧
    (handleStore B max_object_size msg attSize reg freshTxn).reply.status =
      B.commitTxn txn ∧
    (handleStoreAbort B ⟨msg.req_id, msg.session_id⟩
      (handleStore B max_object_size msg attSize reg
        freshTxn).registry).reply.status = EnumStatus.MALFORMED ∧
    (handleStoreAbort B ⟨msg.req_id, msg.session_id⟩
      (handleStore B max_object_size msg attSize reg
        freshTxn).registry).calls = [] := by
  have he : handleStore B max_object_size msg attSize reg freshTxn =
      ⟨⟨msg.req_id, msg.part_nr, B.commitTxn txn⟩,
        rErase reg1 ⟨msg.session_id, msg.req_id⟩,
        (calls1 ++
          (if 0 < attSize then
            [BackendCall.writeTxn txn attSize (B.writeTxn txn attSize)]
          else [])) ++
          [BackendCall.commitTxn txn (B.commitTxn txn)]⟩ := by
    rcases hwr with h0 | hok
    · subst h0
      simp [handleStore, hp, hg, hr, storeFinish, hl]
    · by_cases ha : 0 < attSize
      · simp [handleStore, hp, hg, hr, ha, hok, storeFinish, hl]
        exact Nat.le_of_not_lt (fun hlt => hg (Or.inl hlt))
      · simp [handleStore, hp, hg, hr, ha, storeFinish, hl]
        exact Nat.le_of_not_lt (fun hlt => hg (Or.inl hlt))
  rw [he]
  have hnone : rLookup (rErase reg1 ⟨msg.session_id, msg.req_id⟩)
      ⟨msg.session_id, msg.req_id⟩ = none := by
    rw [rLookup_erase, if_pos rfl]
  refine ⟨rfl, rContains_erase_self reg1 _, rfl, ?_, ?_⟩
  · simp [handleStoreAbort, hnone]
  · simp [handleStoreAbort, hnone]

/-- Witness for commit_erases_registry_entry: a single-part store whose
CommitTxn fails still frees the key. -/
theorem commit_erases_registry_entry_witness :
    rContains (handleStore commitFailBackend 8
        ⟨11, 3, goodHash, 1, none, true, none, none⟩ 8 [] 5).registry
      ⟨3, 11⟩ = false ∧
    (handleStore commitFailBackend 8
        ⟨11, 3, goodHash, 1, none, true, none, none⟩ 8 [] 5).reply.status =
      EnumStatus.IOERR := by
  have h := commit_erases_registry_entry commitFailBackend 8
    ⟨11, 3, goodHash, 1, none, true, none, none⟩ 8 [] 5
    ⟨1, List.replicate 20 0⟩ 5 [(⟨3, 11⟩, 5)]
    [BackendCall.startTxn ⟨1, List.replicate 20 0⟩ 5 EnumStatus.OK]
    (by decide) (by decide) (by rfl) (by decide) (by decide)
  exact ⟨h.2.1, h.2.2.1⟩

end CvmfsChannel

namespace CvmfsChannel

/-- C3 counterexample: ListingNext answers an error (IOERR) on the first
call of a page; the reply propagates the status but its is_last_part
field is false, not the default true the claim asserts, because the
non-OUTOFBOUNDS branch of HandleList sets it (channel.cc line 142). -/
theorem list_error_last_part_counterexample :
    (handleListPage 5 1
      [(EnumStatus.IOERR,
        ⟨⟨1, []⟩, ObjectType.regular, 0, false, ""⟩)]).reply.status =
      EnumStatus.IOERR ∧
    (handleListPage 5 1
      [(EnumStatus.IOERR,
        ⟨⟨1, []⟩, ObjectType.regular, 0, false, ""⟩)]).reply.is_last_part =
      false := by
  decide

/-- C3 (amended): for every ListReq page during which ListingNext returns
a status other than OK and other than OUTOFBOUNDS, the reply carries that
backend status unmodified and its is_last_part field is set to false. -/
theorem list_error_propagates_status (req_id listing_id : Nat)
    (stream : List (EnumStatus × ObjectInfo)) (st : EnumStatus)
    (h : (listLoop stream 0).2.1 = st)
    (h1 : st ≠ EnumStatus.OK) (h2 : st ≠ EnumStatus.OUTOFBOUNDS) :
    (handleListPage req_id listing_id stream).reply.status = st ∧
    (handleListPage req_id listing_id stream).reply.is_last_part = false := by
  simp [handleListPage, h, h2]

/-- Witness for list_error_propagates_status at a concrete one-element
error stream. -/
theorem list_error_propagates_status_witness :
    (handleListPage 9 4
      [(EnumStatus.NOENTRY,
        ⟨⟨1, []⟩, ObjectType.regular, 0, false, ""⟩)]).reply.status =
      EnumStatus.NOENTRY ∧
    (handleListPage 9 4
      [(EnumStatus.NOENTRY,
        ⟨⟨1, []⟩, ObjectType.regular, 0, false, ""⟩)]).reply.is_last_part =
      false := by
  exact list_error_propagates_status 9 4
    [(EnumStatus.NOENTRY, ⟨⟨1, []⟩, ObjectType.regular, 0, false, ""⟩)]
    EnumStatus.NOENTRY (by decide) (by decide) (by decide)

/-- C4: evaluation of the connection-teardown step at a concrete
supervisor state.  The dispatcher returned false for the connection with
fd 5 at watch index 2; the code closes fd 5 and erases index 2 from the
watch vector, but the subsequent connections_.erase reads the fd at index
2 of the already shifted vector — fd 7 — so the closed fd 5 survives in
the connection set while the live fd 7 is removed from it. -/
theorem close_conn_erases_wrong_fd :
    (supervisorCloseConn ⟨[3, 4, 5, 7], [5, 7]⟩ 2).1 = 5 ∧
    (supervisorCloseConn ⟨[3, 4, 5, 7], [5, 7]⟩ 2).2.watchFds = [3, 4, 7] ∧
    (supervisorCloseConn ⟨[3, 4, 5, 7], [5, 7]⟩ 2).2.connections = [5] := by
  decide

end CvmfsChannel

namespace CvmfsChannel

theorem consumePage_append (items : List ObjectInfo) (t : Nat) :
    (consumePage items t).1 ++ (consumePage items t).2 = items := by
  induction items generalizing t with
  | nil => rfl
  | cons item rest ih =>
    by_cases h : kListingSize < t + listItemSize item
    · simp [consumePage, h]
    · simp [consumePage, h, ih]

theorem okStream_nil : okStream [] = [] := rfl

theorem okStream_cons (item : ObjectInfo) (rest : List ObjectInfo) :
    okStream (item :: rest) = (EnumStatus.OK, item) :: okStream rest := rfl

theorem listLoop_okStream (items : List ObjectInfo) (t : Nat) :
    listLoop (okStream items) t =
      ((consumePage items t).1.map mkListRecord, pageStatus items t,
        okStream (consumePage items t).2) := by
  induction items generalizing t with
  | nil => simp [okStream_nil, listLoop, consumePage, pageStatus]
  | cons item rest ih =>
    have hms : List.map (fun item => (EnumStatus.OK, item)) rest =
        okStream rest := rfl
    by_cases h : kListingSize < t + listItemSize item
    · simp [okStream_cons, listLoop, consumePage, pageStatus, h]
      try rw [hms]
    · simp [okStream_cons, listLoop, consumePage, pageStatus, h]
      rw [hms, ih]
      exact ⟨rfl, rfl⟩

theorem pageStatus_out_consume (items : List ObjectInfo) (t : Nat)
    (h : pageStatus items t = EnumStatus.OUTOFBOUNDS) :
    consumePage items t = (items, []) := by
  induction items generalizing t with
  | nil => rfl
  | cons item rest ih =>
    by_cases hb : kListingSize < t + listItemSize item
    · simp [pageStatus, hb] at h
    · simp only [pageStatus, hb, if_false] at h
      simp [consumePage, hb, ih _ h]

theorem pageStatus_ne_out_consume_lt (items : List ObjectInfo) (t : Nat)
    (h : pageStatus items t ≠ EnumStatus.OUTOFBOUNDS) :
    (consumePage items t).2.length < items.length := by
  induction items generalizing t with
  | nil => simp [pageStatus] at h
  | cons item rest ih =>
    by_cases hb : kListingSize < t + listItemSize item
    · simp [consumePage, hb]
    · have h2 : pageStatus rest (t + listItemSize item) ≠
          EnumStatus.OUTOFBOUNDS := by
        simpa [pageStatus, hb] using h
      simp only [consumePage, hb, if_false, List.length_cons]
      exact Nat.lt_succ_of_lt (ih _ h2)

theorem paginateAux_succ (fuel : Nat)
    (stream : List (EnumStatus × ObjectInfo)) :
    paginateAux (fuel + 1) stream =
      (if (handleListPage 0 1 stream).reply.is_last_part then
        (handleListPage 0 1 stream).reply.list_record
      else
        (handleListPage 0 1 stream).reply.list_record ++
          paginateAux fuel (handleListPage 0 1 stream).rest) := rfl

theorem paginateAux_okStream (n : Nat) :
    ∀ items : List ObjectInfo, items.length ≤ n →
      paginateAux (n + 1) (okStream items) = items.map mkListRecord := by
  induction n with
  | zero =>
    intro items h
    have hnil : items = [] := List.length_eq_zero.mp (Nat.le_zero.mp h)
    subst hnil
    simp [paginateAux, handleListPage, listLoop, okStream]
  | succ m ih =>
    intro items h
    rw [paginateAux_succ]
    by_cases hout : pageStatus items 0 = EnumStatus.OUTOFBOUNDS
    · have hc := pageStatus_out_consume items 0 hout
      simp [handleListPage, listLoop_okStream, hout, hc]
    · have hlt := pageStatus_ne_out_consume_lt items 0 hout
      have hrec := ih (consumePage items 0).2
        (Nat.lt_succ_iff.mp (lt_of_lt_of_le hlt h))
      simp [handleListPage, listLoop_okStream, hout]
      rw [hrec, ← List.map_append, consumePage_append]

/-- C6: paginating one listing — issuing pages against the cursor until a
reply carries is_last_part = true and concatenating the list_record
sequences — yields exactly the records a single uninterrupted ListingNext
loop over the cursor would produce, in order, each item exactly once. -/
theorem listing_pagination_exact (items : List ObjectInfo) :
    paginatePages (okStream items) = items.map mkListRecord := by
  have h := paginateAux_okStream (okStream items).length items
    (by simp [okStream])
  simpa [paginatePages] using h

end CvmfsChannel

namespace CvmfsChannel

theorem counterStateAfter_eq (state0 n : Nat) :
    counterStateAfter state0 n = state0 + n := by
  induction n with
  | zero => rfl
  | succ m ih => simp [counterStateAfter, nextIdValue, ih]; omega

theorem allocatedId_eq (state0 n : Nat) :
    allocatedId state0 n = state0 + n := by
  simp [allocatedId, nextIdValue, counterStateAfter_eq]

/-- C7: over the lifetime of one daemon, the sequences of session ids,
transaction ids and listing ids handed out by the allocators are strictly
increasing, and no listing id is ever zero. -/
theorem fresh_ids_strictly_increasing :
    (∀ m n : Nat, m < n →
      allocatedId sessionCounterInit m < allocatedId sessionCounterInit n ∧
      allocatedId txnCounterInit m < allocatedId txnCounterInit n ∧
      allocatedId lstCounterInit m < allocatedId lstCounterInit n) ∧
    (∀ n : Nat, allocatedId lstCounterInit n ≠ 0) := by
  constructor
  · intro m n h
    simp only [allocatedId_eq, sessionCounterInit, txnCounterInit,
      lstCounterInit]
    omega
  · intro n
    simp [allocatedId_eq, lstCounterInit]

/-- Witness for fresh_ids_strictly_increasing at the first two
allocations. -/
theorem fresh_ids_strictly_increasing_witness :
    allocatedId sessionCounterInit 0 < allocatedId sessionCounterInit 1 ∧
    allocatedId lstCounterInit 0 ≠ 0 := by
  exact ⟨(fresh_ids_strictly_increasing.1 0 1 (by decide)).1,
    fresh_ids_strictly_increasing.2 0⟩

/-- C8: the channel performs no capability check.  Dispatch is identical
for any two capability masks on every non-handshake request; refcount,
object-info, info, shrink and list requests are routed to their handlers,
the backend operation is invoked, and the backend's status is forwarded
to the client verbatim. -/
theorem no_capability_gate (caps caps2 : Nat) (name : String) (B : Backend)
    (max_object_size : Nat) (reg : Registry)
    (freshSession freshTxn freshLst : Nat) (beginStatus : EnumStatus)
    (stream : List (EnumStatus × ObjectInfo)) :
    (∀ req : Request, req ≠ Request.handshake →
      handleRequest caps name B max_object_size reg freshSession freshTxn
        freshLst beginStatus stream req =
      handleRequest caps2 name B max_object_size reg freshSession freshTxn
        freshLst beginStatus stream req) ∧
    (∀ msg : InfoReq,
      resultStatus (handleRequest caps name B max_object_size reg
        freshSession freshTxn freshLst beginStatus stream
        (Request.info msg)) = some (B.getInfo).1 ∧
      (handleRequest caps name B max_object_size reg freshSession freshTxn
        freshLst beginStatus stream (Request.info msg)).calls =
        [BackendCall.getInfo (B.getInfo).1]) ∧
    (∀ msg : ShrinkReq,
      resultStatus (handleRequest caps name B max_object_size reg
        freshSession freshTxn freshLst beginStatus stream
        (Request.shrink msg)) = some (B.shrink msg.shrink_to).1 ∧
      (handleRequest caps name B max_object_size reg freshSession freshTxn
        freshLst beginStatus stream (Request.shrink msg)).calls =
        [BackendCall.shrink msg.shrink_to (B.shrink msg.shrink_to).1]) ∧
    (∀ (msg : RefcountReq) (oid : ObjectId),
      parseMsgHash msg.object_id = some oid →
      resultStatus (handleRequest caps name B max_object_size reg
        freshSession freshTxn freshLst beginStatus stream
        (Request.refcount msg)) = some (B.changeRefcount oid msg.change_by) ∧
      (handleRequest caps name B max_object_size reg freshSession freshTxn
        freshLst beginStatus stream (Request.refcount msg)).calls =
        [BackendCall.changeRefcount oid msg.change_by
          (B.changeRefcount oid msg.change_by)]) ∧
    (∀ (msg : ObjectInfoReq) (oid : ObjectId),
      parseMsgHash msg.object_id = some oid →
      resultStatus (handleRequest caps name B max_object_size reg
        freshSession freshTxn freshLst beginStatus stream
        (Request.objectInfo msg)) = some (B.getObjectInfo oid).1 ∧
      (handleRequest caps name B max_object_size reg freshSession freshTxn
        freshLst beginStatus stream (Request.objectInfo msg)).calls =
        [BackendCall.getObjectInfo oid (B.getObjectInfo oid).1]) ∧
    (∀ msg : ListReq, msg.listing_id = 0 →
      beginStatus ≠ EnumStatus.OK →
      resultStatus (handleRequest caps name B max_object_size reg
        freshSession freshTxn freshLst beginStatus stream
        (Request.list msg)) = some beginStatus ∧
      (handleRequest caps name B max_object_size reg freshSession freshTxn
        freshLst beginStatus stream (Request.list msg)).calls =
        [BackendCall.listingBegin freshLst beginStatus]) := by
  refine ⟨?_, ?_, ?_, ?_, ?_, ?_⟩
  · intro req hne
    cases req <;> first | rfl | exact absurd rfl hne
  · intro msg
    simp [handleRequest, handleInfo, resultStatus, replyStatus]
  · intro msg
    simp [handleRequest, handleShrink, resultStatus, replyStatus]
  · intro msg oid hp
    simp [handleRequest, handleRefcount, hp, resultStatus, replyStatus]
  · intro msg oid hp
    by_cases hok : (B.getObjectInfo oid).1 = EnumStatus.OK <;>
      simp [handleRequest, handleObjectInfo, hp, hok, resultStatus,
        replyStatus]
  · intro msg h0 hbs
    simp [handleRequest, handleList, h0, hbs, resultStatus, replyStatus]

/-- Witness for no_capability_gate: an InfoReq dispatched with all
capability bits cleared still reaches the backend, whose NOSUPPORT status
is forwarded verbatim. -/
theorem no_capability_gate_witness :
    resultStatus (handleRequest 0 "plugin" (constBackend EnumStatus.NOSUPPORT)
      1024 [] 1 1 1 EnumStatus.OK [] (Request.info ⟨9⟩)) =
      some EnumStatus.NOSUPPORT ∧
    handleRequest 0 "plugin" (constBackend EnumStatus.NOSUPPORT)
      1024 [] 1 1 1 EnumStatus.OK [] (Request.info ⟨9⟩) =
    handleRequest 31 "plugin" (constBackend EnumStatus.NOSUPPORT)
      1024 [] 1 1 1 EnumStatus.OK [] (Request.info ⟨9⟩) := by
  have h := no_capability_gate 0 31 "plugin"
    (constBackend EnumStatus.NOSUPPORT) 1024 [] 1 1 1 EnumStatus.OK []
  exact ⟨(h.2.1 ⟨9⟩).1, h.1 (Request.info ⟨9⟩) (by decide)⟩

end CvmfsChannel

namespace PolyCtor

theorem lazilyRegister_state (s : PluginState)
    (h : (s.registered = false ∧ s.register_plugin_calls = 0) ∨
      (s.registered = true ∧ s.register_plugin_calls = 1)) :
    (lazilyRegisterPlugins s).registered = true ∧
      (lazilyRegisterPlugins s).register_plugin_calls = 1 := by
  rcases h with ⟨h1, h2⟩ | ⟨h1, h2⟩ <;> simp [lazilyRegisterPlugins, h1, h2]

theorem pluginRun_aux (ops : List PluginOp) (s : PluginState)
    (h : (s.registered = false ∧ s.register_plugin_calls = 0) ∨
      (s.registered = true ∧ s.register_plugin_calls = 1)) :
    ((ops.foldl
      (fun s op =>
        match op with
        | PluginOp.construct p => (construct s p).1
        | PluginOp.introspect => (introspect s).1) s).registered = false ∧
      (ops.foldl
        (fun s op =>
          match op with
          | PluginOp.construct p => (construct s p).1
          | PluginOp.introspect => (introspect s).1) s).register_plugin_calls
        = 0) ∨
    ((ops.foldl
      (fun s op =>
        match op with
        | PluginOp.construct p => (construct s p).1
        | PluginOp.introspect => (introspect s).1) s).registered = true ∧
      (ops.foldl
        (fun s op =>
          match op with
          | PluginOp.construct p => (construct s p).1
          | PluginOp.introspect => (introspect s).1) s).register_plugin_calls
        = 1) := by
  induction ops generalizing s with
  | nil => exact h
  | cons op rest ih =>
    rw [List.foldl_cons]
    cases op with
    | construct p => exact ih _ (Or.inr (lazilyRegister_state s h))
    | introspect => exact ih _ (Or.inr (lazilyRegister_state s h))

/-- C9: Construct returns an instance of the unique registered factory
whose WillHandle accepts the decision value — and no instance when no
registered factory accepts it — and the plugin registration routine runs
at most once per process however many Construct or Introspect calls are
made. -/
theorem polymorphic_construction_registry :
    (∀ ops : List PluginOp, (pluginRun ops).register_plugin_calls ≤ 1) ∧
    (∀ (p : DecisionType) (f g : PluginFactory), f ∈ mockPlugins →
      g ∈ mockPlugins → f.willHandle p = true → g.willHandle p = true →
      f = g) ∧
    (∀ p : DecisionType,
      (construct initPluginState p).2 =
        if p.type = 0 ∨ p.type = 1 ∨ p.type = 2 then some p.type
        else none) ∧
    (∀ (s : PluginState) (p : DecisionType) (tag : Int),
      (construct s p).2 = some tag →
      ∃ f, f ∈ (lazilyRegisterPlugins s).plugins ∧ f.willHandle p = true ∧
        f.tag = tag) := by
  refine ⟨?_, ?_, ?_, ?_⟩
  · intro ops
    have h := pluginRun_aux ops initPluginState (Or.inl ⟨rfl, rfl⟩)
    unfold pluginRun
    rcases h with ⟨_, h2⟩ | ⟨_, h2⟩ <;> rw [h2] <;> omega
  · intro p f g hf hg hwf hwg
    simp only [mockPlugins, List.mem_cons, List.mem_singleton,
      List.not_mem_nil, or_false] at hf hg
    rcases hf with rfl | rfl | rfl <;> rcases hg with rfl | rfl | rfl <;>
      first
      | rfl
      | (exfalso
         simp [firstMock, secondMock, thirdMock] at hwf hwg
         omega)
  · intro p
    by_cases h0 : p.type = 0 <;> by_cases h1 : p.type = 1 <;>
      by_cases h2 : p.type = 2 <;>
      simp [construct, lazilyRegisterPlugins, initPluginState, mockPlugins,
        firstMock, secondMock, thirdMock, List.find?, h0, h1, h2]
  · intro s p tag h
    simp only [construct] at h
    cases hf : (lazilyRegisterPlugins s).plugins.find?
        (fun f => f.willHandle p) with
    | none => rw [hf] at h; cases h
    | some f =>
      rw [hf] at h
      have hwf : f.willHandle p = true := by
        have h2 := List.find?_some hf
        simpa using h2
      refine ⟨f, List.mem_of_find?_eq_some hf, hwf, ?_⟩
      simpa using h

/-- Witness for polymorphic_construction_registry: a run of three calls
registers at most once, and a concrete Construct resolves to the factory
accepting its decision value. -/
theorem polymorphic_construction_registry_witness :
    (pluginRun [PluginOp.construct ⟨0, false⟩, PluginOp.introspect,
        PluginOp.construct ⟨3, false⟩]).register_plugin_calls ≤ 1 ∧
    (∃ f, f ∈ (lazilyRegisterPlugins initPluginState).plugins ∧
      f.willHandle ⟨1, false⟩ = true ∧ f.tag = 1) := by
  refine ⟨polymorphic_construction_registry.1 _, ?_⟩
  exact polymorphic_construction_registry.2.2.2 initPluginState
    ⟨1, false⟩ 1 (by rfl)

end PolyCtor

namespace CvmfsChannel

theorem rContains_false_not_key (reg : Registry) (k : UniqueRequest)
    (h : rContains reg k = false) : ∀ p ∈ reg, p.1 ≠ k := by
  intro p hp
  have h2 : ∀ q ∈ reg, decide (q.1 = k) = false := by
    simpa [rContains, List.any_eq_false] using h
  exact of_decide_eq_false (h2 p hp)

theorem rLookup_eq_some_mem (reg : Registry) (k : UniqueRequest) (v : Nat)
    (h : rLookup reg k = some v) : (k, v) ∈ reg := by
  unfold rLookup at h
  cases hf : reg.find? (fun p => p.1 = k) with
  | none => rw [hf] at h; cases h
  | some p =>
    rw [hf] at h
    have hp1 : p.1 = k := by
      have h2 := List.find?_some hf
      simpa using h2
    have hp2 : p.2 = v := by simpa using h
    have hmem := List.mem_of_find?_eq_some hf
    have hpk : p = (k, v) := by
      obtain ⟨p1, p2⟩ := p
      simp at hp1 hp2
      rw [hp1, hp2]
    rwa [hpk] at hmem

theorem values_nodup_key_unique (reg : Registry)
    (hV : (reg.map Prod.snd).Nodup) (k1 k2 : UniqueRequest) (t : Nat)
    (h1 : (k1, t) ∈ reg) (h2 : (k2, t) ∈ reg) : k1 = k2 := by
  have h3 : ((k1, t) : UniqueRequest × Nat) = (k2, t) :=
    List.inj_on_of_nodup_map hV h1 h2 rfl
  exact congrArg Prod.fst h3

theorem rErase_map_nodup {α : Type} (reg : Registry) (k : UniqueRequest)
    (f : UniqueRequest × Nat → α) (h : (reg.map f).Nodup) :
    ((rErase reg k).map f).Nodup :=
  h.sublist ((List.filter_sublist reg).map f)

theorem mem_of_mem_rErase (reg : Registry) (k : UniqueRequest)
    (p : UniqueRequest × Nat) (h : p ∈ rErase reg k) : p ∈ reg :=
  List.mem_of_mem_filter h

theorem rErase_rInsert_cancel (reg : Registry) (k : UniqueRequest) (v : Nat)
    (hc : rContains reg k = false) : rErase (rInsert reg k v) k = reg := by
  rw [rInsert, rErase_cons, if_pos rfl, rContains_false_erase _ _ hc,
    rContains_false_erase _ _ hc]

theorem rInsert_not_contained (reg : Registry) (k : UniqueRequest) (v : Nat)
    (hc : rContains reg k = false) : rInsert reg k v = (k, v) :: reg := by
  rw [rInsert, rContains_false_erase _ _ hc]

theorem invCore_mono (reg : Registry) (ctr : Nat) (opens : List Nat)
    (h : InvCore reg ctr opens) : InvCore reg (ctr + 1) opens := by
  obtain ⟨hK, hV, hD, hO, hI⟩ := h
  exact ⟨hK, hV, fun p hp => Nat.lt_succ_of_lt (hD p hp),
    fun t ht => Nat.lt_succ_of_lt (hO t ht), hI⟩

theorem invCore_insert (reg : Registry) (ctr : Nat) (opens : List Nat)
    (k : UniqueRequest) (h : InvCore reg ctr opens)
    (hc : rContains reg k = false) :
    InvCore (rInsert reg k ctr) (ctr + 1) (ctr :: opens) := by
  obtain ⟨hK, hV, hD, hO, hI⟩ := h
  rw [rInsert_not_contained reg k ctr hc]
  refine ⟨?_, ?_, ?_, ?_, ?_⟩
  · rw [List.map_cons, List.nodup_cons]
    refine ⟨?_, hK⟩
    intro hmem
    obtain ⟨p, hp, hpk⟩ := List.mem_map.mp hmem
    exact rContains_false_not_key reg k hc p hp hpk
  · rw [List.map_cons, List.nodup_cons]
    refine ⟨?_, hV⟩
    intro hmem
    obtain ⟨p, hp, hpc⟩ := List.mem_map.mp hmem
    have hlt := hD p hp
    have hpc2 : p.2 = ctr := hpc
    exact Nat.lt_irrefl ctr (hpc2 ▸ hlt)
  · intro p hp
    rcases List.mem_cons.mp hp with rfl | hp
    · exact Nat.lt_succ_self ctr
    · exact Nat.lt_succ_of_lt (hD p hp)
  · intro t ht
    rcases List.mem_cons.mp ht with rfl | ht
    · exact Nat.lt_succ_self t
    · exact Nat.lt_succ_of_lt (hO t ht)
  · intro t
    constructor
    · rintro ⟨k2, hl⟩
      rw [rLookup_cons] at hl
      by_cases hk : k = k2
      · rw [if_pos hk] at hl
        exact List.mem_cons.mpr (Or.inl (Option.some.injEq .. ▸ hl).symm)
      · rw [if_neg hk] at hl
        exact List.mem_cons.mpr (Or.inr ((hI t).mp ⟨k2, hl⟩))
    · intro ht
      rcases List.mem_cons.mp ht with rfl | ht
      · exact ⟨k, by rw [rLookup_cons, if_pos rfl]⟩
      · obtain ⟨k2, hl⟩ := (hI t).mpr ht
        refine ⟨k2, ?_⟩
        rw [rLookup_cons]
        by_cases hk : k = k2
        · subst hk
          rw [rContains_false_lookup_none reg k hc] at hl
          cases hl
        · rw [if_neg hk]
          exact hl

theorem invCore_erase (reg : Registry) (ctr : Nat) (opens : List Nat)
    (k : UniqueRequest) (t0 : Nat) (h : InvCore reg ctr opens)
    (hl : rLookup reg k = some t0) :
    InvCore (rErase reg k) ctr (opens.filter (fun t => t ≠ t0)) := by
  obtain ⟨hK, hV, hD, hO, hI⟩ := h
  have hmem0 : (k, t0) ∈ reg := rLookup_eq_some_mem reg k t0 hl
  refine ⟨rErase_map_nodup reg k _ hK, rErase_map_nodup reg k _ hV,
    fun p hp => hD p (mem_of_mem_rErase reg k p hp), ?_, ?_⟩
  · intro t ht
    exact hO t (List.mem_of_mem_filter ht)
  · intro t
    constructor
    · rintro ⟨k2, hl2⟩
      rw [rLookup_erase] at hl2
      by_cases hk : k2 = k
      · rw [if_pos hk] at hl2; cases hl2
      · rw [if_neg hk] at hl2
        have htin : t ∈ opens := (hI t).mp ⟨k2, hl2⟩
        have hne : t ≠ t0 := by
          intro hteq
          subst hteq
          exact hk (values_nodup_key_unique reg hV k2 k t
            (rLookup_eq_some_mem reg k2 t hl2) hmem0)
        refine List.mem_filter.mpr ⟨htin, ?_⟩
        simpa using hne
    · intro ht
      obtain ⟨htin, hne⟩ := List.mem_filter.mp ht
      have hne2 : t ≠ t0 := by simpa using hne
      obtain ⟨k2, hl2⟩ := (hI t).mpr htin
      have hk : k2 ≠ k := by
        intro hkeq
        subst hkeq
        rw [hl] at hl2
        exact hne2 (Option.some.injEq .. ▸ hl2).symm
      exact ⟨k2, by rw [rLookup_erase, if_neg hk]; exact hl2⟩

end CvmfsChannel

namespace CvmfsChannel

theorem invCore_handleStore (B : Backend) (maxosz : Nat) (msg : StoreReq)
    (attSize : Nat) (reg : Registry) (ctr : Nat) (opens : List Nat)
    (h : InvCore reg ctr opens) :
    InvCore (handleStore B maxosz msg attSize reg ctr).registry
      (if (handleStore B maxosz msg attSize reg ctr).calls.any isStartTxnCall
        then ctr + 1 else ctr)
      ((handleStore B maxosz msg attSize reg ctr).calls.foldl openTxnsStep
        opens) := by
  cases hp : parseMsgHash msg.object_id with
  | none =>
    have he : handleStore B maxosz msg attSize reg ctr =
        ⟨⟨msg.req_id, msg.part_nr, EnumStatus.MALFORMED⟩, reg, []⟩ := by
      simp [handleStore, hp]
    rw [he]
    simpa using h
  | some oid =>
    by_cases hg : maxosz < attSize ∨
        (attSize < maxosz ∧ msg.last_part = false)
    · have he : handleStore B maxosz msg attSize reg ctr =
          ⟨⟨msg.req_id, msg.part_nr, EnumStatus.MALFORMED⟩, reg, []⟩ := by
        simp [handleStore, hp, hg]
      rw [he]
      simpa using h
    · have hle : attSize ≤ maxosz :=
        Nat.le_of_not_lt (fun hlt => hg (Or.inl hlt))
      have heq2 : msg.last_part = false → maxosz = attSize := fun hlf => by
        rcases Nat.lt_or_ge attSize maxosz with hlt | hge
        · exact absurd (Or.inr ⟨hlt, hlf⟩) hg
        · omega
      by_cases h1 : msg.part_nr = 1
      · by_cases hc : rContains reg ⟨msg.session_id, msg.req_id⟩
        · have he : handleStore B maxosz msg attSize reg ctr =
              ⟨⟨msg.req_id, msg.part_nr, EnumStatus.MALFORMED⟩, reg, []⟩ := by
            simp [handleStore, storeResolve, hp, hg, h1, hc]
          rw [he]
          simpa using h
        · have hcf : rContains reg ⟨msg.session_id, msg.req_id⟩ = false := by
            simpa using hc
          by_cases hst : B.startTxn oid ctr (storeObjectInfo oid msg) =
              EnumStatus.OK
          · have hO := h.2.2.2.1
            have hfe : opens.filter (fun t => !decide (t = ctr)) = opens :=
              List.filter_eq_self.mpr (fun t ht => by
                simpa using Nat.ne_of_lt (hO t ht))
            by_cases ha : 0 < attSize
            · by_cases hw : B.writeTxn ctr attSize = EnumStatus.OK
              · by_cases hl : msg.last_part
                · have he : handleStore B maxosz msg attSize reg ctr =
                      ⟨⟨msg.req_id, msg.part_nr, B.commitTxn ctr⟩,
                        rErase (rInsert reg ⟨msg.session_id, msg.req_id⟩ ctr)
                          ⟨msg.session_id, msg.req_id⟩,
                        [BackendCall.startTxn oid ctr EnumStatus.OK,
                          BackendCall.writeTxn ctr attSize EnumStatus.OK,
                          BackendCall.commitTxn ctr (B.commitTxn ctr)]⟩ := by
                    simp [handleStore, storeResolve, storeFinish, hp, hg, h1,
                      hcf, hst, ha, hw, hl]
                    all_goals first | exact hle | exact (heq2 (by simpa using hl))
                  rw [he, rErase_rInsert_cancel reg _ ctr hcf]
                  simp only [isStartTxnCall, List.any_cons, List.any_nil,
                    Bool.or_false, Bool.true_or, if_true, List.foldl_cons,
                    List.foldl_nil, openTxnsStep]
                  simp [hfe]
                  exact invCore_mono reg ctr opens h
                · have he : handleStore B maxosz msg attSize reg ctr =
                      ⟨⟨msg.req_id, msg.part_nr, EnumStatus.OK⟩,
                        rInsert reg ⟨msg.session_id, msg.req_id⟩ ctr,
                        [BackendCall.startTxn oid ctr EnumStatus.OK,
                          BackendCall.writeTxn ctr attSize EnumStatus.OK]⟩ := by
                    simp [handleStore, storeResolve, storeFinish, hp, hg, h1,
                      hcf, hst, ha, hw, hl]
                    all_goals first | exact hle | exact (heq2 (by simpa using hl))
                  rw [he]
                  simpa [isStartTxnCall, openTxnsStep] using
                    invCore_insert reg ctr opens ⟨msg.session_id, msg.req_id⟩
                      h hcf
              · have he : handleStore B maxosz msg attSize reg ctr =
                    ⟨⟨msg.req_id, msg.part_nr, B.writeTxn ctr attSize⟩,
                      rInsert reg ⟨msg.session_id, msg.req_id⟩ ctr,
                      [BackendCall.startTxn oid ctr EnumStatus.OK,
                        BackendCall.writeTxn ctr attSize
                          (B.writeTxn ctr attSize)]⟩ := by
                  simp [handleStore, storeResolve, storeFinish, hp, hg, h1,
                    hcf, hst, ha, hw]
                rw [he]
                simpa [isStartTxnCall, openTxnsStep] using
                  invCore_insert reg ctr opens ⟨msg.session_id, msg.req_id⟩
                    h hcf
            · by_cases hl : msg.last_part
              · have he : handleStore B maxosz msg attSize reg ctr =
                    ⟨⟨msg.req_id, msg.part_nr, B.commitTxn ctr⟩,
                      rErase (rInsert reg ⟨msg.session_id, msg.req_id⟩ ctr)
                        ⟨msg.session_id, msg.req_id⟩,
                      [BackendCall.startTxn oid ctr EnumStatus.OK,
                        BackendCall.commitTxn ctr (B.commitTxn ctr)]⟩ := by
                  simp [handleStore, storeResolve, storeFinish, hp, hg, h1,
                    hcf, hst, ha, hl]
                  all_goals first | exact hle | exact (heq2 (by simpa using hl))
                rw [he, rErase_rInsert_cancel reg _ ctr hcf]
                simp only [isStartTxnCall, List.any_cons, List.any_nil,
                  Bool.or_false, Bool.true_or, if_true, List.foldl_cons,
                  List.foldl_nil, openTxnsStep]
                simp [hfe]
                exact invCore_mono reg ctr opens h
              · have he : handleStore B maxosz msg attSize reg ctr =
                    ⟨⟨msg.req_id, msg.part_nr, EnumStatus.OK⟩,
                      rInsert reg ⟨msg.session_id, msg.req_id⟩ ctr,
                      [BackendCall.startTxn oid ctr EnumStatus.OK]⟩ := by
                  simp [handleStore, storeResolve, storeFinish, hp, hg, h1,
                    hcf, hst, ha, hl]
                  all_goals first | exact hle | exact (heq2 (by simpa using hl))
                rw [he]
                simpa [isStartTxnCall, openTxnsStep] using
                  invCore_insert reg ctr opens ⟨msg.session_id, msg.req_id⟩
                    h hcf
          · have he : handleStore B maxosz msg attSize reg ctr =
                ⟨⟨msg.req_id, msg.part_nr,
                    B.startTxn oid ctr (storeObjectInfo oid msg)⟩, reg,
                  [BackendCall.startTxn oid ctr
                    (B.startTxn oid ctr (storeObjectInfo oid msg))]⟩ := by
              simp [handleStore, storeResolve, hp, hg, h1, hcf, hst]
            rw [he]
            simpa [isStartTxnCall, openTxnsStep, hst] using
              invCore_mono reg ctr opens h
      · cases hl2 : rLookup reg ⟨msg.session_id, msg.req_id⟩ with
        | none =>
          have he : handleStore B maxosz msg attSize reg ctr =
              ⟨⟨msg.req_id, msg.part_nr, EnumStatus.MALFORMED⟩, reg, []⟩ := by
            simp [handleStore, storeResolve, hp, hg, h1, hl2]
          rw [he]
          simpa using h
        | some t0 =>
          by_cases ha : 0 < attSize
          · by_cases hw : B.writeTxn t0 attSize = EnumStatus.OK
            · by_cases hl : msg.last_part
              · have he : handleStore B maxosz msg attSize reg ctr =
                    ⟨⟨msg.req_id, msg.part_nr, B.commitTxn t0⟩,
                      rErase reg ⟨msg.session_id, msg.req_id⟩,
                      [BackendCall.writeTxn t0 attSize EnumStatus.OK,
                        BackendCall.commitTxn t0 (B.commitTxn t0)]⟩ := by
                  simp [handleStore, storeResolve, storeFinish, hp, hg, h1,
                    hl2, ha, hw, hl]
                  all_goals first | exact hle | exact (heq2 (by simpa using hl))
                rw [he]
                simpa [isStartTxnCall, openTxnsStep] using
                  invCore_erase reg ctr opens ⟨msg.session_id, msg.req_id⟩
                    t0 h hl2
              · have he : handleStore B maxosz msg attSize reg ctr =
                    ⟨⟨msg.req_id, msg.part_nr, EnumStatus.OK⟩, reg,
                      [BackendCall.writeTxn t0 attSize EnumStatus.OK]⟩ := by
                  simp [handleStore, storeResolve, storeFinish, hp, hg, h1,
                    hl2, ha, hw, hl]
                  all_goals first | exact hle | exact (heq2 (by simpa using hl))
                rw [he]
                simpa [isStartTxnCall, openTxnsStep] using h
            · have he : handleStore B maxosz msg attSize reg ctr =
                  ⟨⟨msg.req_id, msg.part_nr, B.writeTxn t0 attSize⟩, reg,
                    [BackendCall.writeTxn t0 attSize
                      (B.writeTxn t0 attSize)]⟩ := by
                simp [handleStore, storeResolve, hp, hg, h1, hl2, ha, hw]
              rw [he]
              simpa [isStartTxnCall, openTxnsStep] using h
          · by_cases hl : msg.last_part
            · have he : handleStore B maxosz msg attSize reg ctr =
                  ⟨⟨msg.req_id, msg.part_nr, B.commitTxn t0⟩,
                    rErase reg ⟨msg.session_id, msg.req_id⟩,
                    [BackendCall.commitTxn t0 (B.commitTxn t0)]⟩ := by
                simp [handleStore, storeResolve, storeFinish, hp, hg, h1,
                  hl2, ha, hl]
                all_goals first | exact hle | exact (heq2 (by simpa using hl))
              rw [he]
              simpa [isStartTxnCall, openTxnsStep] using
                invCore_erase reg ctr opens ⟨msg.session_id, msg.req_id⟩
                  t0 h hl2
            · have he : handleStore B maxosz msg attSize reg ctr =
                  ⟨⟨msg.req_id, msg.part_nr, EnumStatus.OK⟩, reg, []⟩ := by
                simp [handleStore, storeResolve, storeFinish, hp, hg, h1,
                  hl2, ha, hl]
                all_goals first | exact hle | exact (heq2 (by simpa using hl))
              rw [he]
              simpa using h

theorem invCore_handleStoreAbort (B : Backend) (msg : StoreAbortReq)
    (reg : Registry) (ctr : Nat) (opens : List Nat)
    (h : InvCore reg ctr opens) :
    InvCore (handleStoreAbort B msg reg).registry ctr
      ((handleStoreAbort B msg reg).calls.foldl openTxnsStep opens) := by
  cases hl : rLookup reg ⟨msg.session_id, msg.req_id⟩ with
  | none =>
    have he : handleStoreAbort B msg reg =
        ⟨⟨msg.req_id, 0, EnumStatus.MALFORMED⟩, reg, []⟩ := by
      simp [handleStoreAbort, hl]
    rw [he]
    simpa using h
  | some t0 =>
    have he : handleStoreAbort B msg reg =
        ⟨⟨msg.req_id, 0, B.abortTxn t0⟩,
          rErase reg ⟨msg.session_id, msg.req_id⟩,
          [BackendCall.abortTxn t0 (B.abortTxn t0)]⟩ := by
      simp [handleStoreAbort, hl]
    rw [he]
    simpa [openTxnsStep] using
      invCore_erase reg ctr opens ⟨msg.session_id, msg.req_id⟩ t0 h hl

end CvmfsChannel

namespace CvmfsChannel

theorem invCore_chanRun (B : Backend) (max_object_size : Nat)
    (ops : List ChanOp) (s : ChanState)
    (h : InvCore s.registry s.nextTxn (openTxns s.trace)) :
    InvCore (ops.foldl (chanStep B max_object_size) s).registry
      (ops.foldl (chanStep B max_object_size) s).nextTxn
      (openTxns (ops.foldl (chanStep B max_object_size) s).trace) := by
  induction ops generalizing s with
  | nil => exact h
  | cons op rest ih =>
    rw [List.foldl_cons]
    apply ih
    have hopen : ∀ calls : List BackendCall,
        openTxns (s.trace ++ calls) =
          calls.foldl openTxnsStep (openTxns s.trace) := fun calls => by
      simp [openTxns, List.foldl_append]
    cases op with
    | store msg attSize =>
      simp only [chanStep]
      rw [hopen]
      exact invCore_handleStore B max_object_size msg attSize s.registry
        s.nextTxn (openTxns s.trace) h
    | storeAbort msg =>
      simp only [chanStep]
      rw [hopen]
      exact invCore_handleStoreAbort B msg s.registry s.nextTxn
        (openTxns s.trace) h

/-- C2: transaction-registry invariant.  Over every run of store and
store-abort operations from daemon start, the registry holds at most one
transaction per (session_id, request_id) key and a transaction id is
registered under some key exactly when the backend holds it open;
a part-1 StoreReq on an already-registered key is answered MALFORMED
without starting or registering a transaction; a successful StoreAbortReq
erases the key, and a StoreReq with last_part that reaches the commit
step leaves the key unregistered. -/
theorem txn_registry_invariant :
    (∀ (B : Backend) (max_object_size : Nat) (ops : List ChanOp),
      ((chanRun B max_object_size ops).registry.map Prod.fst).Nodup ∧
      (∀ t, (∃ k, rLookup (chanRun B max_object_size ops).registry k =
          some t) ↔
        t ∈ openTxns (chanRun B max_object_size ops).trace)) ∧
    (∀ (B : Backend) (max_object_size : Nat) (msg : StoreReq)
        (attSize : Nat) (reg : Registry) (freshTxn : Nat),
      msg.part_nr = 1 →
      rContains reg ⟨msg.session_id, msg.req_id⟩ = true →
      (handleStore B max_object_size msg attSize reg freshTxn).reply.status =
        EnumStatus.MALFORMED ∧
      (handleStore B max_object_size msg attSize reg freshTxn).registry =
        reg ∧
      (handleStore B max_object_size msg attSize reg freshTxn).calls = []) ∧
    (∀ (B : Backend) (msg : StoreAbortReq) (reg : Registry) (t0 : Nat),
      rLookup reg ⟨msg.session_id, msg.req_id⟩ = some t0 →
      (handleStoreAbort B msg reg).registry =
        rErase reg ⟨msg.session_id, msg.req_id⟩ ∧
      rContains (handleStoreAbort B msg reg).registry
        ⟨msg.session_id, msg.req_id⟩ = false) ∧
    (∀ (B : Backend) (max_object_size : Nat) (msg : StoreReq)
        (attSize : Nat) (reg : Registry) (freshTxn : Nat) (oid : ObjectId)
        (txn : Nat) (reg1 : Registry) (calls1 : List BackendCall),
      parseMsgHash msg.object_id = some oid →
      ¬(max_object_size < attSize ∨
        (attSize < max_object_size ∧ msg.last_part = false)) →
      storeResolve B reg freshTxn msg oid = Except.ok (txn, reg1, calls1) →
      (attSize = 0 ∨ B.writeTxn txn attSize = EnumStatus.OK) →
      msg.last_part = true →
      rContains (handleStore B max_object_size msg attSize reg
        freshTxn).registry ⟨msg.session_id, msg.req_id⟩ = false) := by
  refine ⟨?_, ?_, ?_, ?_⟩
  · intro B max_object_size ops
    have hinit : InvCore ([] : Registry) txnCounterInit (openTxns []) := by
      refine ⟨List.nodup_nil, List.nodup_nil, by simp, by simp [openTxns], ?_⟩
      intro t
      simp [rLookup, openTxns]
    have h := invCore_chanRun B max_object_size ops
      ⟨[], txnCounterInit, []⟩ hinit
    exact ⟨h.1, h.2.2.2.2⟩
  · intro B max_object_size msg attSize reg freshTxn h1 h2
    cases hp : parseMsgHash msg.object_id with
    | none => simp [handleStore, hp]
    | some oid =>
      by_cases hcond : max_object_size < attSize ∨
          (attSize < max_object_size ∧ msg.last_part = false)
      · simp [handleStore, hp, hcond]
      · simp [handleStore, storeResolve, hp, hcond, h1, h2]
  · intro B msg reg t0 hl
    have he : handleStoreAbort B msg reg =
        ⟨⟨msg.req_id, 0, B.abortTxn t0⟩,
          rErase reg ⟨msg.session_id, msg.req_id⟩,
          [BackendCall.abortTxn t0 (B.abortTxn t0)]⟩ := by
      simp [handleStoreAbort, hl]
    rw [he]
    exact ⟨rfl, rContains_erase_self reg _⟩
  · intro B max_object_size msg attSize reg freshTxn oid txn reg1 calls1
      hp hg hr hwr hl
    have hgl : ¬(max_object_size < attSize) := fun hlt => hg (Or.inl hlt)
    have he : (handleStore B max_object_size msg attSize reg
        freshTxn).registry = rErase reg1 ⟨msg.session_id, msg.req_id⟩ := by
      rcases hwr with h0 | hok
      · subst h0
        simp [handleStore, hp, hg, hgl, hr, storeFinish, hl]
      · by_cases ha : 0 < attSize
        · simp [handleStore, hp, hg, hgl, hr, ha, hok, storeFinish, hl]
        · simp [handleStore, hp, hg, hgl, hr, ha, storeFinish, hl]
    rw [he]
    exact rContains_erase_self reg1 _

/-- Witness for txn_registry_invariant: a two-operation run and a
successful abort at concrete inputs. -/
theorem txn_registry_invariant_witness :
    (handleStoreAbort (constBackend EnumStatus.OK) ⟨7, 2⟩
        [(⟨2, 7⟩, 9)]).registry = rErase [(⟨2, 7⟩, 9)] ⟨2, 7⟩ ∧
    rContains (handleStoreAbort (constBackend EnumStatus.OK) ⟨7, 2⟩
        [(⟨2, 7⟩, 9)]).registry ⟨2, 7⟩ = false := by
  exact txn_registry_invariant.2.2.1 (constBackend EnumStatus.OK) ⟨7, 2⟩
    [(⟨2, 7⟩, 9)] 9 (by decide)

end CvmfsChannel
